import Mathlib

/-!
Shallow embedding of the duotone processing engine of the
brave-pink-hero-green-412 repository: the contrast S-curve, dimension
normalization, the continuous duotone color mapper and the raster
(halftone) pipeline, with proofs of the specified properties.
JavaScript double arithmetic is modelled by exact real arithmetic, and
JavaScript `Math.round` by the floor of x + 1/2.
-/

namespace Duotone

/-- An RGB color triple, one integer channel each (0 to 255 in practice). -/
structure Color where
  r : ℤ
  g : ℤ
  b : ℤ
deriving DecidableEq

/-- An RGBA pixel as stored in a `Uint8ClampedArray` row of the image. -/
structure Pixel where
  r : ℤ
  g : ℤ
  b : ℤ
  a : ℤ
deriving DecidableEq

/-- All channels of a color are in the byte range 0 to 255. -/
def Color.inRange (c : Color) : Prop :=
  0 ≤ c.r ∧ c.r ≤ 255 ∧ 0 ≤ c.g ∧ c.g ≤ 255 ∧ 0 ≤ c.b ∧ c.b ≤ 255

instance (c : Color) : Decidable c.inRange := by
  unfold Color.inRange; infer_instance

/-- All channels of a pixel are in the byte range 0 to 255. -/
def Pixel.inRange (p : Pixel) : Prop :=
  0 ≤ p.r ∧ p.r ≤ 255 ∧ 0 ≤ p.g ∧ p.g ≤ 255 ∧ 0 ≤ p.b ∧ p.b ≤ 255 ∧
    0 ≤ p.a ∧ p.a ≤ 255

instance (p : Pixel) : Decidable p.inRange := by
  unfold Pixel.inRange; infer_instance

def OPTIMIZED_SHADOW_COLOR : Color := ⟨22, 80, 39⟩

def OPTIMIZED_HIGHLIGHT_COLOR : Color := ⟨249, 159, 210⟩

def CLASSIC_SHADOW_COLOR : Color := ⟨27, 96, 47⟩

def CLASSIC_HIGHLIGHT_COLOR : Color := ⟨247, 132, 197⟩

def MAX_DIMENSION : ℕ := 3000

/-- JavaScript `Math.round` on rationals: round half toward positive infinity. -/
def jsRoundQ (x : ℚ) : ℤ := ⌊x + 1 / 2⌋

/-- `calculateDimensions` from the source: keep each dimension at most
`MAX_DIMENSION`, scaling proportionally (and rounding) when needed. -/
def calculateDimensions (originalWidth originalHeight : ℕ) : ℤ × ℤ :=
  if originalWidth ≤ MAX_DIMENSION ∧ originalHeight ≤ MAX_DIMENSION then
    ((originalWidth : ℤ), (originalHeight : ℤ))
  else
    let scale : ℚ := (MAX_DIMENSION : ℚ) / (max originalWidth originalHeight : ℚ)
    (jsRoundQ (originalWidth * scale), jsRoundQ (originalHeight * scale))


/-- Clamp a real value into the unit interval,
translating `Math.max(0, Math.min(1, x))` from the source. -/
noncomputable def clamp01 (x : ℝ) : ℝ := max 0 (min 1 x)

/-- `enhanceContrast` from the source: an S-curve with exponent 1.8 that
pushes values away from 0.5 toward the extremes. -/
noncomputable def enhanceContrast (value : ℝ) : ℝ :=
  if value < 0.5 then (value * 2) ^ (1.8 : ℝ) / 2
  else 1 - ((1 - value) * 2) ^ (1.8 : ℝ) / 2

/-- Rec. 709 luminance of integer RGB channels, as in the source. -/
noncomputable def luminance (r g b : ℤ) : ℝ :=
  0.2126 * (r : ℝ) + 0.7152 * (g : ℝ) + 0.0722 * (b : ℝ)

/-- Luminance of a pixel. -/
noncomputable def Pixel.lum (p : Pixel) : ℝ := luminance p.r p.g p.b

/-- One step of the single-pass min/max luminance scan of the source
(the accumulator starts at `(255, 0)`). -/
noncomputable def lumStep (mm : ℝ × ℝ) (p : Pixel) : ℝ × ℝ :=
  (if p.lum < mm.1 then p.lum else mm.1, if p.lum > mm.2 then p.lum else mm.2)

/-- The `(minLuminance, maxLuminance)` pair computed by the single pass over
the pixel buffer in `processImageOnCanvas`. -/
noncomputable def scanLuminance (buf : List Pixel) : ℝ × ℝ :=
  buf.foldl lumStep (255, 0)

/-- `luminanceRange = maxLuminance - minLuminance || 1` from the source:
a zero difference is replaced by the unit range. -/
noncomputable def luminanceRange (buf : List Pixel) : ℝ :=
  if (scanLuminance buf).2 - (scanLuminance buf).1 = 0 then 1
  else (scanLuminance buf).2 - (scanLuminance buf).1

/-- JavaScript `Math.round` on reals: round half toward positive infinity. -/
noncomputable def jsRound (x : ℝ) : ℤ := ⌊x + 1 / 2⌋

/-- Clamping of an integer into a byte on assignment to a
`Uint8ClampedArray` slot. -/
def clampChannel (z : ℤ) : ℤ := max 0 (min 255 z)

/-- The normalized and contrast-enhanced interpolation parameter used by the
continuous duotone mapper for a pixel. -/
noncomputable def duotoneT (minL range : ℝ) (p : Pixel) : ℝ :=
  enhanceContrast (clamp01 ((p.lum - minL) / range))

/-- The per-pixel body of the continuous duotone loop of
`processImageOnCanvas`: interpolate each channel between the shadow and
highlight colors by the enhanced parameter; alpha is untouched. -/
noncomputable def mapDuotonePixel (shadow highlight : Color) (minL range : ℝ)
    (p : Pixel) : Pixel :=
  let t := duotoneT minL range p
  { r := clampChannel (jsRound ((shadow.r : ℝ) + t * ((highlight.r : ℝ) - (shadow.r : ℝ))))
    g := clampChannel (jsRound ((shadow.g : ℝ) + t * ((highlight.g : ℝ) - (shadow.g : ℝ))))
    b := clampChannel (jsRound ((shadow.b : ℝ) + t * ((highlight.b : ℝ) - (shadow.b : ℝ))))
    a := p.a }

/-- The continuous (non-halftone) branch of `processImageOnCanvas`. -/
noncomputable def processContinuous (shadow highlight : Color)
    (buf : List Pixel) : List Pixel :=
  buf.map (mapDuotonePixel shadow highlight (scanLuminance buf).1 (luminanceRange buf))

/-! ### Basic facts about `clamp01`, `enhanceContrast` and `jsRound` -/

theorem clamp01_nonneg (x : ℝ) : 0 ≤ clamp01 x := le_max_left 0 _

theorem clamp01_le_one (x : ℝ) : clamp01 x ≤ 1 := by
  unfold clamp01
  rcases le_total 1 x with h | h
  · simp [min_eq_left h]
  · have : min 1 x ≤ 1 := min_le_left 1 x
    exact max_le (by norm_num) this

theorem clamp01_of_mem (x : ℝ) (h0 : 0 ≤ x) (h1 : x ≤ 1) : clamp01 x = x := by
  unfold clamp01
  rw [min_eq_right h1, max_eq_right h0]

theorem enhanceContrast_zero : enhanceContrast 0 = 0 := by
  unfold enhanceContrast
  rw [if_pos (by norm_num)]
  rw [zero_mul, Real.zero_rpow (by norm_num)]
  norm_num

theorem enhanceContrast_one : enhanceContrast 1 = 1 := by
  unfold enhanceContrast
  rw [if_neg (by norm_num)]
  norm_num

theorem enhanceContrast_half : enhanceContrast 0.5 = 0.5 := by
  unfold enhanceContrast
  rw [if_neg (by norm_num)]
  norm_num

theorem enhanceContrast_mem (v : ℝ) (h0 : 0 ≤ v) (h1 : v ≤ 1) :
    0 ≤ enhanceContrast v ∧ enhanceContrast v ≤ 1 := by
  unfold enhanceContrast
  by_cases hv : v < 0.5
  · rw [if_pos hv]
    have hb0 : (0 : ℝ) ≤ v * 2 := by linarith
    have hb1 : v * 2 ≤ 1 := by linarith
    have hp0 : 0 ≤ (v * 2) ^ (1.8 : ℝ) := Real.rpow_nonneg hb0 _
    have hp1 : (v * 2) ^ (1.8 : ℝ) ≤ 1 := Real.rpow_le_one hb0 hb1 (by norm_num)
    constructor <;> linarith
  · rw [if_neg hv]
    push_neg at hv
    have hb0 : (0 : ℝ) ≤ (1 - v) * 2 := by linarith
    have hb1 : (1 - v) * 2 ≤ 1 := by linarith
    have hp0 : 0 ≤ ((1 - v) * 2) ^ (1.8 : ℝ) := Real.rpow_nonneg hb0 _
    have hp1 : ((1 - v) * 2) ^ (1.8 : ℝ) ≤ 1 := Real.rpow_le_one hb0 hb1 (by norm_num)
    constructor <;> linarith

theorem enhanceContrast_mono (a b : ℝ) (ha : 0 ≤ a) (hab : a ≤ b) (hb : b ≤ 1) :
    enhanceContrast a ≤ enhanceContrast b := by
  unfold enhanceContrast
  by_cases hA : a < 0.5 <;> by_cases hB : b < 0.5
  · rw [if_pos hA, if_pos hB]
    have h := Real.rpow_le_rpow (x := a * 2) (y := b * 2) (z := (1.8 : ℝ))
      (by linarith) (by linarith) (by norm_num)
    linarith
  · rw [if_pos hA, if_neg hB]
    push_neg at hB
    have hL : (a * 2) ^ (1.8 : ℝ) ≤ 1 :=
      Real.rpow_le_one (by linarith) (by linarith) (by norm_num)
    have hR : ((1 - b) * 2) ^ (1.8 : ℝ) ≤ 1 :=
      Real.rpow_le_one (by linarith) (by linarith) (by norm_num)
    linarith
  · exact absurd (lt_of_le_of_lt hab hB) hA
  · rw [if_neg hA, if_neg hB]
    push_neg at hA
    have h := Real.rpow_le_rpow (x := (1 - b) * 2) (y := (1 - a) * 2)
      (z := (1.8 : ℝ)) (by linarith) (by linarith) (by norm_num)
    linarith

theorem jsRound_intCast (z : ℤ) : jsRound (z : ℝ) = z := by
  unfold jsRound
  rw [Int.floor_eq_iff]
  constructor <;> [skip; push_cast] <;> linarith

theorem le_jsRound (m : ℤ) (x : ℝ) (h : (m : ℝ) ≤ x) : m ≤ jsRound x :=
  Int.le_floor.mpr (by linarith)

theorem jsRound_le (M : ℤ) (x : ℝ) (h : x ≤ (M : ℝ)) : jsRound x ≤ M := by
  have hlt : jsRound x < M + 1 := Int.floor_lt.mpr (by push_cast; linarith)
  omega

/-- Interpolating between two byte values by a parameter in the unit
interval and rounding never leaves the interval they span. -/
theorem jsRound_interp_mem (s h : ℤ) (t : ℝ) (ht0 : 0 ≤ t) (ht1 : t ≤ 1) :
    min s h ≤ jsRound ((s : ℝ) + t * ((h : ℝ) - s)) ∧
      jsRound ((s : ℝ) + t * ((h : ℝ) - s)) ≤ max s h := by
  rcases le_total s h with hc | hc
  · have hc2 : (s : ℝ) ≤ (h : ℝ) := by exact_mod_cast hc
    rw [min_eq_left hc, max_eq_right hc]
    constructor
    · exact le_jsRound _ _ (by nlinarith)
    · exact jsRound_le _ _ (by nlinarith)
  · have hc2 : (h : ℝ) ≤ (s : ℝ) := by exact_mod_cast hc
    rw [min_eq_right hc, max_eq_left hc]
    constructor
    · exact le_jsRound _ _ (by nlinarith)
    · exact jsRound_le _ _ (by nlinarith)

theorem clampChannel_of_mem (z : ℤ) (h0 : 0 ≤ z) (h255 : z ≤ 255) :
    clampChannel z = z := by
  unfold clampChannel; omega

theorem jsRoundQ_le (M : ℤ) (x : ℚ) (h : x ≤ (M : ℚ)) : jsRoundQ x ≤ M := by
  have hlt : jsRoundQ x < M + 1 := Int.floor_lt.mpr (by push_cast; linarith)
  omega

theorem calculateDimensions_within (ow oh : ℕ) (h : ow ≤ 3000 ∧ oh ≤ 3000) :
    calculateDimensions ow oh = ((ow : ℤ), (oh : ℤ)) := by
  unfold calculateDimensions MAX_DIMENSION
  rw [if_pos h]

theorem calculateDimensions_scaled (ow oh : ℕ) (h : ¬(ow ≤ 3000 ∧ oh ≤ 3000)) :
    calculateDimensions ow oh =
      (jsRoundQ ((ow : ℚ) * ((3000 : ℚ) / (max ow oh : ℚ))),
        jsRoundQ ((oh : ℚ) * ((3000 : ℚ) / (max ow oh : ℚ)))) := by
  unfold calculateDimensions MAX_DIMENSION
  rw [if_neg h]
  push_cast
  rfl

theorem calculateDimensions_le (ow oh : ℕ) (h : ¬(ow ≤ 3000 ∧ oh ≤ 3000)) :
    (calculateDimensions ow oh).1 ≤ 3000 ∧ (calculateDimensions ow oh).2 ≤ 3000 := by
  rw [calculateDimensions_scaled ow oh h]
  have hmax : 3000 < max ow oh := by
    rcases not_and_or.mp h with h1 | h1 <;> push_neg at h1 <;> omega
  have hm0 : (0 : ℚ) < (max ow oh : ℚ) := by exact_mod_cast Nat.lt_of_lt_of_le (by norm_num) hmax.le
  have hb : ∀ d : ℕ, d ≤ max ow oh → jsRoundQ ((d : ℚ) * ((3000 : ℚ) / (max ow oh : ℚ))) ≤ 3000 := by
    intro d hd
    apply jsRoundQ_le
    have hd2 : (d : ℚ) ≤ (max ow oh : ℚ) := by exact_mod_cast hd
    calc (d : ℚ) * ((3000 : ℚ) / (max ow oh : ℚ))
        ≤ (max ow oh : ℚ) * ((3000 : ℚ) / (max ow oh : ℚ)) := by
          apply mul_le_mul_of_nonneg_right hd2 (by positivity)
      _ = (3000 : ℚ) := by field_simp
      _ = ((3000 : ℤ) : ℚ) := by norm_num
  exact ⟨hb ow (le_max_left ow oh), hb oh (le_max_right ow oh)⟩

theorem calculateDimensions_4000_2000 : calculateDimensions 4000 2000 = (3000, 1500) := by
  norm_num [calculateDimensions, jsRoundQ, MAX_DIMENSION]

theorem calculateDimensions_2000_1000 : calculateDimensions 2000 1000 = (2000, 1000) := by
  norm_num [calculateDimensions, jsRoundQ, MAX_DIMENSION]

theorem calculateDimensions_3000_3000 : calculateDimensions 3000 3000 = (3000, 3000) := by
  norm_num [calculateDimensions, jsRoundQ, MAX_DIMENSION]

/-- C7: the dimension normalizer keeps both dimensions when they are at most
3000, otherwise scales each by 3000 over the larger one and rounds, with both
results at most 3000; including the three concrete examples. -/
theorem claim_C7 (ow oh : ℕ) (how : 0 < ow) (hoh : 0 < oh) :
    (ow ≤ 3000 ∧ oh ≤ 3000 → calculateDimensions ow oh = ((ow : ℤ), (oh : ℤ))) ∧
    (¬(ow ≤ 3000 ∧ oh ≤ 3000) →
      calculateDimensions ow oh =
        (jsRoundQ ((ow : ℚ) * ((3000 : ℚ) / (max ow oh : ℚ))),
          jsRoundQ ((oh : ℚ) * ((3000 : ℚ) / (max ow oh : ℚ)))) ∧
      (calculateDimensions ow oh).1 ≤ 3000 ∧ (calculateDimensions ow oh).2 ≤ 3000) ∧
    calculateDimensions 4000 2000 = (3000, 1500) ∧
    calculateDimensions 2000 1000 = (2000, 1000) ∧
    calculateDimensions 3000 3000 = (3000, 3000) :=
  ⟨calculateDimensions_within ow oh,
    fun h => ⟨calculateDimensions_scaled ow oh h, calculateDimensions_le ow oh h⟩,
    calculateDimensions_4000_2000, calculateDimensions_2000_1000,
    calculateDimensions_3000_3000⟩

/-- Witness for C7 at the concrete pairs (4000, 2000) and (2000, 1000). -/
theorem claim_C7_witness :
    calculateDimensions 4000 2000 = (3000, 1500) ∧
      calculateDimensions 2000 1000 = (2000, 1000) :=
  ⟨(claim_C7 4000 2000 (by norm_num) (by norm_num)).2.2.1,
    (claim_C7 2000 1000 (by norm_num) (by norm_num)).2.2.2.1⟩

/-- C8: the contrast curve maps the unit interval into itself, fixes 0, 1
and 0.5, and is monotonically increasing on the unit interval. -/
theorem claim_C8 :
    (∀ v : ℝ, 0 ≤ v → v ≤ 1 → 0 ≤ enhanceContrast v ∧ enhanceContrast v ≤ 1) ∧
    enhanceContrast 0 = 0 ∧ enhanceContrast 1 = 1 ∧
    enhanceContrast 0.5 = 0.5 ∧
    (∀ a b : ℝ, 0 ≤ a → a < b → b ≤ 1 →
      enhanceContrast a ≤ enhanceContrast b) :=
  ⟨enhanceContrast_mem, enhanceContrast_zero, enhanceContrast_one,
    enhanceContrast_half, fun a b ha hab hb =>
      enhanceContrast_mono a b ha hab.le hb⟩

/-- Witness for C8 at the concrete inputs 0.25 and 0.75. -/
theorem claim_C8_witness :
    (0 ≤ enhanceContrast 0.25 ∧ enhanceContrast 0.25 ≤ 1) ∧
      enhanceContrast 0.25 ≤ enhanceContrast 0.75 :=
  ⟨claim_C8.1 0.25 (by norm_num) (by norm_num),
    claim_C8.2.2.2.2 0.25 0.75 (by norm_num) (by norm_num) (by norm_num)⟩

/-- Evaluation and bounds for one interpolated channel: the clamp on
assignment is the identity, and the rounded value stays between the two
source channels. -/
theorem channel_eval (s h : ℤ) (hs0 : 0 ≤ s) (hs255 : s ≤ 255) (hh0 : 0 ≤ h)
    (hh255 : h ≤ 255) (t : ℝ) (ht0 : 0 ≤ t) (ht1 : t ≤ 1) :
    clampChannel (jsRound ((s : ℝ) + t * ((h : ℝ) - s))) =
        jsRound ((s : ℝ) + t * ((h : ℝ) - s)) ∧
      min s h ≤ jsRound ((s : ℝ) + t * ((h : ℝ) - s)) ∧
      jsRound ((s : ℝ) + t * ((h : ℝ) - s)) ≤ max s h := by
  obtain ⟨hlo, hhi⟩ := jsRound_interp_mem s h t ht0 ht1
  refine ⟨clampChannel_of_mem _ ?_ ?_, hlo, hhi⟩
  · have : (0 : ℤ) ≤ min s h := le_min hs0 hh0
    omega
  · have : max s h ≤ 255 := max_le hs255 hh255
    omega

theorem processContinuous_length (shadow highlight : Color) (buf : List Pixel) :
    (processContinuous shadow highlight buf).length = buf.length := by
  simp [processContinuous]

theorem processContinuous_get (shadow highlight : Color) (buf : List Pixel)
    (i : ℕ) (hi : i < buf.length)
    (hi2 : i < (processContinuous shadow highlight buf).length) :
    (processContinuous shadow highlight buf).get ⟨i, hi2⟩ =
      mapDuotonePixel shadow highlight (scanLuminance buf).1 (luminanceRange buf)
        (buf.get ⟨i, hi⟩) := by
  simp [processContinuous]

/-- C1: in continuous mode, each output RGB channel of pixel i equals
round(shadow + t * (highlight - shadow)) where
t = enhanceContrast(clamp((lum_i - minLuminance)/luminanceRange, 0, 1)) and
lum_i is the Rec. 709 luminance of the source pixel; consequently each
output channel lies between the corresponding shadow and highlight
channels. -/
theorem claim_C1 (shadow highlight : Color) (hs : shadow.inRange)
    (hh : highlight.inRange) (buf : List Pixel) (i : ℕ) (hi : i < buf.length)
    (hi2 : i < (processContinuous shadow highlight buf).length) :
    (((processContinuous shadow highlight buf).get ⟨i, hi2⟩).r =
        jsRound ((shadow.r : ℝ) +
          enhanceContrast (clamp01 (((buf.get ⟨i, hi⟩).lum - (scanLuminance buf).1) /
              luminanceRange buf)) * ((highlight.r : ℝ) - (shadow.r : ℝ))) ∧
      ((processContinuous shadow highlight buf).get ⟨i, hi2⟩).g =
        jsRound ((shadow.g : ℝ) +
          enhanceContrast (clamp01 (((buf.get ⟨i, hi⟩).lum - (scanLuminance buf).1) /
              luminanceRange buf)) * ((highlight.g : ℝ) - (shadow.g : ℝ))) ∧
      ((processContinuous shadow highlight buf).get ⟨i, hi2⟩).b =
        jsRound ((shadow.b : ℝ) +
          enhanceContrast (clamp01 (((buf.get ⟨i, hi⟩).lum - (scanLuminance buf).1) /
              luminanceRange buf)) * ((highlight.b : ℝ) - (shadow.b : ℝ)))) ∧
    (min shadow.r highlight.r ≤ ((processContinuous shadow highlight buf).get ⟨i, hi2⟩).r ∧
      ((processContinuous shadow highlight buf).get ⟨i, hi2⟩).r ≤ max shadow.r highlight.r) ∧
    (min shadow.g highlight.g ≤ ((processContinuous shadow highlight buf).get ⟨i, hi2⟩).g ∧
      ((processContinuous shadow highlight buf).get ⟨i, hi2⟩).g ≤ max shadow.g highlight.g) ∧
    (min shadow.b highlight.b ≤ ((processContinuous shadow highlight buf).get ⟨i, hi2⟩).b ∧
      ((processContinuous shadow highlight buf).get ⟨i, hi2⟩).b ≤ max shadow.b highlight.b) := by
  obtain ⟨hsr0, hsr1, hsg0, hsg1, hsb0, hsb1⟩ := hs
  obtain ⟨hhr0, hhr1, hhg0, hhg1, hhb0, hhb1⟩ := hh
  have hget := processContinuous_get shadow highlight buf i hi hi2
  set t := enhanceContrast (clamp01 (((buf.get ⟨i, hi⟩).lum - (scanLuminance buf).1) /
    luminanceRange buf)) with htdef
  obtain ⟨ht0, ht1⟩ :=
    enhanceContrast_mem _ (clamp01_nonneg _) (clamp01_le_one _)
  have hr := channel_eval shadow.r highlight.r hsr0 hsr1 hhr0 hhr1 t ht0 ht1
  have hg := channel_eval shadow.g highlight.g hsg0 hsg1 hhg0 hhg1 t ht0 ht1
  have hb := channel_eval shadow.b highlight.b hsb0 hsb1 hhb0 hhb1 t ht0 ht1
  rw [hget]
  unfold mapDuotonePixel duotoneT
  dsimp only
  rw [hr.1, hg.1, hb.1]
  exact ⟨⟨rfl, rfl, rfl⟩, ⟨hr.2.1, hr.2.2⟩, ⟨hg.2.1, hg.2.2⟩, ⟨hb.2.1, hb.2.2⟩⟩

/-- A one-pixel black buffer used by the concrete witnesses. -/
def blackBuf1 : List Pixel := [⟨0, 0, 0, 255⟩]

theorem blackBuf1_pos :
    0 < (processContinuous OPTIMIZED_SHADOW_COLOR OPTIMIZED_HIGHLIGHT_COLOR
      blackBuf1).length := by
  rw [processContinuous_length]; decide

/-- Witness for C1: the red channel of the one-pixel black buffer under the
optimized palette stays between the shadow and highlight red channels. -/
theorem claim_C1_witness :
    min OPTIMIZED_SHADOW_COLOR.r OPTIMIZED_HIGHLIGHT_COLOR.r ≤
        ((processContinuous OPTIMIZED_SHADOW_COLOR OPTIMIZED_HIGHLIGHT_COLOR
          blackBuf1).get ⟨0, blackBuf1_pos⟩).r ∧
      ((processContinuous OPTIMIZED_SHADOW_COLOR OPTIMIZED_HIGHLIGHT_COLOR
          blackBuf1).get ⟨0, blackBuf1_pos⟩).r ≤
        max OPTIMIZED_SHADOW_COLOR.r OPTIMIZED_HIGHLIGHT_COLOR.r :=
  (claim_C1 OPTIMIZED_SHADOW_COLOR OPTIMIZED_HIGHLIGHT_COLOR (by decide)
    (by decide) blackBuf1 0 (by decide) blackBuf1_pos).2.1

theorem Pixel.lum_nonneg (p : Pixel) (hp : p.inRange) : 0 ≤ p.lum := by
  obtain ⟨h1, h2, h3, h4, h5, h6, h7, h8⟩ := hp
  unfold Pixel.lum luminance
  have c1 : (0 : ℝ) ≤ (p.r : ℝ) := by exact_mod_cast h1
  have c2 : (0 : ℝ) ≤ (p.g : ℝ) := by exact_mod_cast h3
  have c3 : (0 : ℝ) ≤ (p.b : ℝ) := by exact_mod_cast h5
  linarith

theorem Pixel.lum_le (p : Pixel) (hp : p.inRange) : p.lum ≤ 255 := by
  obtain ⟨h1, h2, h3, h4, h5, h6, h7, h8⟩ := hp
  unfold Pixel.lum luminance
  have c1 : (p.r : ℝ) ≤ 255 := by exact_mod_cast h2
  have c2 : (p.g : ℝ) ≤ 255 := by exact_mod_cast h4
  have c3 : (p.b : ℝ) ≤ 255 := by exact_mod_cast h6
  linarith

theorem foldl_lumStep_const (m : ℕ) (p : Pixel) :
    List.foldl lumStep (p.lum, p.lum) (List.replicate m p) = (p.lum, p.lum) := by
  induction m with
  | zero => rfl
  | succ k ih =>
      rw [List.replicate_succ, List.foldl_cons]
      have h1 : lumStep (p.lum, p.lum) p = (p.lum, p.lum) := by
        simp [lumStep]
      rw [h1, ih]

/-- On a uniform buffer, the min/max scan returns the common luminance for
both components. -/
theorem scanLuminance_replicate (n : ℕ) (hn : 1 ≤ n) (p : Pixel)
    (h0 : 0 ≤ p.lum) (h255 : p.lum ≤ 255) :
    scanLuminance (List.replicate n p) = (p.lum, p.lum) := by
  obtain ⟨m, rfl⟩ : ∃ m, n = m + 1 := ⟨n - 1, by omega⟩
  unfold scanLuminance
  rw [List.replicate_succ, List.foldl_cons]
  have h1 : lumStep (255, 0) p = (p.lum, p.lum) := by
    unfold lumStep
    dsimp only
    congr 1
    · by_cases h : p.lum < 255
      · rw [if_pos h]
      · rw [if_neg h]
        exact (le_antisymm h255 (not_lt.mp h)).symm
    · by_cases h : p.lum > 0
      · rw [if_pos h]
      · rw [if_neg h]
        push_neg at h
        exact (le_antisymm h h0).symm
  rw [h1, foldl_lumStep_const]

theorem luminanceRange_replicate (n : ℕ) (hn : 1 ≤ n) (p : Pixel)
    (h0 : 0 ≤ p.lum) (h255 : p.lum ≤ 255) :
    luminanceRange (List.replicate n p) = 1 := by
  unfold luminanceRange
  rw [scanLuminance_replicate n hn p h0 h255]
  simp

/-- With the unit range substituted and the pixel itself as the minimum, the
continuous mapper sends a pixel to the shadow color, preserving alpha. -/
theorem mapDuotonePixel_self (shadow highlight : Color) (hs : shadow.inRange)
    (p : Pixel) :
    mapDuotonePixel shadow highlight p.lum 1 p =
      ⟨shadow.r, shadow.g, shadow.b, p.a⟩ := by
  obtain ⟨hr0, hr1, hg0, hg1, hb0, hb1⟩ := hs
  unfold mapDuotonePixel duotoneT
  have ht : enhanceContrast (clamp01 ((p.lum - p.lum) / 1)) = 0 := by
    rw [sub_self, zero_div, clamp01_of_mem 0 le_rfl zero_le_one,
      enhanceContrast_zero]
  dsimp only
  rw [ht]
  simp only [zero_mul, add_zero, jsRound_intCast]
  rw [clampChannel_of_mem _ hr0 hr1, clampChannel_of_mem _ hg0 hg1,
    clampChannel_of_mem _ hb0 hb1]

/-- A uniform buffer in continuous mode maps to the uniform shadow-color
buffer (alpha preserved). -/
theorem processContinuous_replicate (shadow highlight : Color)
    (hs : shadow.inRange) (n : ℕ) (hn : 1 ≤ n) (p : Pixel)
    (h0 : 0 ≤ p.lum) (h255 : p.lum ≤ 255) :
    processContinuous shadow highlight (List.replicate n p) =
      List.replicate n (⟨shadow.r, shadow.g, shadow.b, p.a⟩ : Pixel) := by
  unfold processContinuous
  rw [List.map_replicate, luminanceRange_replicate n hn p h0 h255,
    scanLuminance_replicate n hn p h0 h255]
  exact congrArg (List.replicate n) (mapDuotonePixel_self shadow highlight hs p)

/-- C6 (amended): a uniform input image under continuous mode yields a
uniform output equal to the blend at t = enhanceContrast 0 = 0, that is,
exactly the shadow color with the input alpha preserved; in particular with
the optimized palette the output RGB is (22, 80, 39). -/
theorem claim_C6 (n : ℕ) (hn : 1 ≤ n) (p : Pixel) (hp : p.inRange) :
    processContinuous OPTIMIZED_SHADOW_COLOR OPTIMIZED_HIGHLIGHT_COLOR
        (List.replicate n p) =
      List.replicate n (⟨22, 80, 39, p.a⟩ : Pixel) ∧
    duotoneT (scanLuminance (List.replicate n p)).1
        (luminanceRange (List.replicate n p)) p = 0 := by
  have h0 := Pixel.lum_nonneg p hp
  have h255 := Pixel.lum_le p hp
  constructor
  · exact processContinuous_replicate OPTIMIZED_SHADOW_COLOR
      OPTIMIZED_HIGHLIGHT_COLOR (by decide) n hn p h0 h255
  · unfold duotoneT
    rw [scanLuminance_replicate n hn p h0 h255,
      luminanceRange_replicate n hn p h0 h255]
    dsimp only
    rw [sub_self, zero_div, clamp01_of_mem 0 le_rfl zero_le_one,
      enhanceContrast_zero]

/-- Witness for C6 on a one-pixel uniform gray buffer. -/
theorem claim_C6_witness :
    processContinuous OPTIMIZED_SHADOW_COLOR OPTIMIZED_HIGHLIGHT_COLOR
        (List.replicate 1 (⟨128, 128, 128, 255⟩ : Pixel)) =
      List.replicate 1 (⟨22, 80, 39, 255⟩ : Pixel) :=
  (claim_C6 1 (by decide) ⟨128, 128, 128, 255⟩ (by decide)).1

/-- C6 as stated is false: a uniform gray image maps to the shadow color
(22, 80, 39), while the blend at t = enhanceContrast 0.5 = 0.5 that the
claim prescribes is (136, 120, 125). -/
theorem claim_C6_cex :
    processContinuous OPTIMIZED_SHADOW_COLOR OPTIMIZED_HIGHLIGHT_COLOR
        [(⟨128, 128, 128, 255⟩ : Pixel)] = [(⟨22, 80, 39, 255⟩ : Pixel)] ∧
    (jsRound ((22 : ℝ) + enhanceContrast 0.5 * ((249 : ℝ) - 22)),
      jsRound ((80 : ℝ) + enhanceContrast 0.5 * ((159 : ℝ) - 80)),
      jsRound ((39 : ℝ) + enhanceContrast 0.5 * ((210 : ℝ) - 39))) =
        ((136 : ℤ), (120 : ℤ), (125 : ℤ)) ∧
    ((22 : ℤ), (80 : ℤ), (39 : ℤ)) ≠ ((136 : ℤ), (120 : ℤ), (125 : ℤ)) := by
  refine ⟨?_, ?_, by decide⟩
  · have hp : (⟨128, 128, 128, 255⟩ : Pixel).inRange := by decide
    have h := processContinuous_replicate OPTIMIZED_SHADOW_COLOR
      OPTIMIZED_HIGHLIGHT_COLOR (by decide) 1 (by decide)
      ⟨128, 128, 128, 255⟩ (Pixel.lum_nonneg _ hp) (Pixel.lum_le _ hp)
    simpa using h
  · rw [enhanceContrast_half]
    unfold jsRound
    norm_num

/-! ### The rasterization (halftone) pipeline -/

/-- The level-adjustment chain of `applyRasterizationPipeline` (step 2),
transcribed statement by statement from the source. -/
noncomputable def adjustLevel (minL range bright ct : ℝ) (v : ℝ) : ℝ :=
  let n1 := clamp01 ((v - minL) / range)
  let n2 := clamp01 (n1 * bright)
  let n3 := enhanceContrast n2
  let n4 := n3 ^ ((1 : ℝ) / ct)
  let n5 := clamp01 ((n4 - 0.05) / (0.95 - 0.05))
  let n6 := n5 ^ ((1 : ℝ) / 0.8)
  let n7 := clamp01 (n6 * 1.1 + 0.05)
  n7 * 255

/-- The default pixel seen on an out-of-range read of a zero-initialized
typed array. -/
def zeroPixel : Pixel := ⟨0, 0, 0, 0⟩

/-- Step 1 of the pipeline: the per-pixel grayscale (luminance) field. -/
noncomputable def grayscaleData (buf : List Pixel) (idx : ℕ) : ℝ :=
  (buf.getD idx zeroPixel).lum

/-- Steps 1 and 2 combined: the adjusted grayscale field. -/
noncomputable def adjustedGrayscale (buf : List Pixel)
    (minL range bright ct : ℝ) (idx : ℕ) : ℝ :=
  adjustLevel minL range bright ct (grayscaleData buf idx)

/-- Step 3: the rotated-grid threshold test for pixel (x, y). -/
noncomputable def thresholdAt (W H : ℕ) (cellSize : ℝ) (adjusted : ℕ → ℝ)
    (x y : ℕ) : Bool :=
  let cosA := Real.cos (Real.pi / 4)
  let sinA := Real.sin (Real.pi / 4)
  let value := adjusted (y * W + x)
  let rotX := ((x : ℝ) - (W : ℝ) / 2) * cosA + ((y : ℝ) - (H : ℝ) / 2) * sinA
  let rotY := -(((x : ℝ) - (W : ℝ) / 2)) * sinA + ((y : ℝ) - (H : ℝ) / 2) * cosA
  let gridX : ℤ := ⌊rotX / cellSize⌋
  let gridY : ℤ := ⌊rotY / cellSize⌋
  let cellOffsetX := rotX - (gridX : ℝ) * cellSize
  let cellOffsetY := rotY - (gridY : ℝ) * cellSize
  let distFromCenter := Real.sqrt ((cellOffsetX - cellSize / 2) ^ 2 +
    (cellOffsetY - cellSize / 2) ^ 2)
  let normalizedValue := value / 255
  let rasterRadius := normalizedValue * cellSize / 2
  decide (distFromCenter ≤ rasterRadius)

/-- `kernelSize = max(1, floor(cellSize / 4))` of the join pass. -/
noncomputable def kernelSize (cellSize : ℝ) : ℤ := max 1 ⌊cellSize / 4⌋

/-- The offsets -k, ..., k of the two join-pass sampling loops. -/
def kernelOffsets (k : ℕ) : List ℤ :=
  (List.range (2 * k + 1)).map (fun j => (j : ℤ) - (k : ℤ))

/-- The (sampleX, sampleY) coordinates visited by the join pass for pixel
(x, y), before the bounds check. -/
def sampleCoords (k : ℕ) (x y : ℕ) : List (ℤ × ℤ) :=
  (kernelOffsets k).flatMap (fun dy => (kernelOffsets k).map
    (fun dx => ((x : ℤ) + dx, (y : ℤ) + dy)))

/-- The explicit bounds check guarding every sample of the join pass. -/
def inBoundsSample (W H : ℕ) (s : ℤ × ℤ) : Bool :=
  decide (0 ≤ s.1) && decide (s.1 < (W : ℤ)) && decide (0 ≤ s.2) &&
    decide (s.2 < (H : ℤ))

/-- The samples that pass the bounds check; these are exactly the ones
counted in `totalCount` and read from the threshold map. -/
def validSamples (W H k : ℕ) (x y : ℕ) : List (ℤ × ℤ) :=
  (sampleCoords k x y).filter (inBoundsSample W H)

/-- Step 4: the morphological join decision for pixel (x, y): the fraction
of in-bounds neighbors marked in the threshold map must exceed 0.3. -/
noncomputable def joinAt (W H k : ℕ) (thr : ℕ → Bool) (x y : ℕ) : Bool :=
  let valid := validSamples W H k x y
  let highlightCount :=
    (valid.filter (fun s => thr (s.2 * (W : ℤ) + s.1).toNat)).length
  let totalCount := valid.length
  decide (((highlightCount : ℝ) / (totalCount : ℝ)) > 0.3)

/-- Step 5: render the joined map; alpha is set to 255 everywhere. -/
noncomputable def renderJoined (shadow highlight : Color) (joined : ℕ → Bool)
    (W H : ℕ) : List Pixel :=
  (List.range H).flatMap (fun y => (List.range W).map (fun x =>
    if joined (y * W + x) then ⟨highlight.r, highlight.g, highlight.b, 255⟩
    else ⟨shadow.r, shadow.g, shadow.b, 255⟩))

/-- `applyRasterizationPipeline` from the source: grayscale and level
adjustment, rotated-grid thresholding, morphological joining, rendering.
Pixel indices are decoded as x = idx % W and y = idx / W, inverting the
pixelIndex = y * W + x encoding of the loops. -/
noncomputable def applyRasterizationPipeline (buf : List Pixel) (W H : ℕ)
    (shadow highlight : Color) (minL range bright ct cellSize : ℝ) :
    List Pixel :=
  let adjusted := adjustedGrayscale buf minL range bright ct
  let thrMap : ℕ → Bool := fun idx =>
    thresholdAt W H cellSize adjusted (idx % W) (idx / W)
  let joined : ℕ → Bool := fun idx =>
    joinAt W H (kernelSize cellSize).toNat thrMap (idx % W) (idx / W)
  renderJoined shadow highlight joined W H

/-! ### The orchestrator -/

/-- The error cases of `processDuotoneImage`/`processImageOnCanvas`. -/
inductive ProcessError where
  | noCanvasContext
  | imageLoadFailed
deriving DecidableEq

/-- The adjustable raster settings record. -/
structure RasterSettings where
  brightness : ℝ
  contrast : ℝ
  cellSize : ℝ

/-- Fieldwise defaulting of the optional raster settings, translating
`rasterSettings?.brightness ?? 1.3` and the two sibling lines. -/
noncomputable def resolveRasterSettings (o : Option RasterSettings) :
    RasterSettings :=
  ⟨(o.map RasterSettings.brightness).getD 1.3,
    (o.map RasterSettings.contrast).getD 1.0,
    (o.map RasterSettings.cellSize).getD 8⟩

/-- Palette selection: classic or optimized pair, optionally reversed. -/
def selectColors (isReversed useClassicColors : Bool) : Color × Color :=
  let base :=
    if useClassicColors then (CLASSIC_SHADOW_COLOR, CLASSIC_HIGHLIGHT_COLOR)
    else (OPTIMIZED_SHADOW_COLOR, OPTIMIZED_HIGHLIGHT_COLOR)
  if isReversed then (base.2, base.1) else base

/-- The value returned by `processImageOnCanvas`. -/
structure ProcessingResult where
  buffer : List Pixel
  width : ℤ
  height : ℤ

/-- The processing core of `processImageOnCanvas` once the image has been
resampled onto the canvas. The only failure in the source is a missing 2d
context; no parameter validation occurs anywhere. -/
noncomputable def processImageOnCanvasCore (ctxAvailable : Bool)
    (buf : List Pixel) (W H : ℕ)
    (isReversed useClassicColors useHalftone : Bool)
    (rasterSettings : Option RasterSettings) :
    Except ProcessError ProcessingResult :=
  if ctxAvailable = false then Except.error ProcessError.noCanvasContext
  else
    let colors := selectColors isReversed useClassicColors
    let minL := (scanLuminance buf).1
    let range := luminanceRange buf
    if useHalftone then
      let s := resolveRasterSettings rasterSettings
      Except.ok ⟨applyRasterizationPipeline buf W H colors.1 colors.2 minL
        range s.brightness s.contrast s.cellSize, (W : ℤ), (H : ℤ)⟩
    else
      Except.ok ⟨processContinuous colors.1 colors.2 buf, (W : ℤ), (H : ℤ)⟩

/-- `processImageOnCanvas` including the dimension-normalization step; the
resampling of the source image onto the normalized canvas (drawImage and
getImageData) is a collaborator and enters as the `resampled` buffer. -/
noncomputable def processImageOnCanvasModel (ctxAvailable : Bool)
    (naturalW naturalH : ℕ) (resampled : List Pixel)
    (isReversed useClassicColors useHalftone : Bool)
    (rasterSettings : Option RasterSettings) :
    Except ProcessError ProcessingResult :=
  processImageOnCanvasCore ctxAvailable resampled
    (calculateDimensions naturalW naturalH).1.toNat
    (calculateDimensions naturalW naturalH).2.toNat
    isReversed useClassicColors useHalftone rasterSettings

/-- C2: the adjusted grayscale of the raster pipeline equals 255 times the
chain: auto-contrast normalize and clamp, multiply by brightness and clamp,
contrast curve, power 1/contrast, remap by (v - 0.05)/(0.95 - 0.05) and
clamp, power 1/0.8, lift v*1.1 + 0.05 and clamp - in this exact order. -/
theorem claim_C2 (buf : List Pixel) (minL range bright ct : ℝ) (idx : ℕ) :
    adjustedGrayscale buf minL range bright ct idx =
      255 * clamp01
        (clamp01 ((enhanceContrast (clamp01 (clamp01
              ((grayscaleData buf idx - minL) / range) * bright)) ^
            ((1 : ℝ) / ct) - 0.05) / (0.95 - 0.05)) ^ ((1 : ℝ) / 0.8) * 1.1 +
          0.05) := by
  unfold adjustedGrayscale adjustLevel
  dsimp only
  ring

/-- The pipeline is definitionally the rendering of its joined map. -/
theorem applyRasterizationPipeline_eq_render (buf : List Pixel) (W H : ℕ)
    (shadow highlight : Color) (minL range bright ct cellSize : ℝ) :
    applyRasterizationPipeline buf W H shadow highlight minL range bright ct
        cellSize =
      renderJoined shadow highlight (fun idx =>
        joinAt W H (kernelSize cellSize).toNat (fun idx2 =>
          thresholdAt W H cellSize (adjustedGrayscale buf minL range bright ct)
            (idx2 % W) (idx2 / W)) (idx % W) (idx / W)) W H := rfl

theorem renderJoined_length (shadow highlight : Color) (joined : ℕ → Bool)
    (W H : ℕ) :
    (renderJoined shadow highlight joined W H).length = H * W := by
  unfold renderJoined
  induction H with
  | zero => simp
  | succ n ih =>
      rw [List.range_succ, List.flatMap_append, List.length_append, ih]
      simp [Nat.succ_mul]

theorem renderJoined_alpha (shadow highlight : Color) (joined : ℕ → Bool)
    (W H : ℕ) (p : Pixel) (hp : p ∈ renderJoined shadow highlight joined W H) :
    p.a = 255 := by
  unfold renderJoined at hp
  simp only [List.mem_flatMap, List.mem_map, List.mem_range] at hp
  obtain ⟨y, hy, x, hx, rfl⟩ := hp
  by_cases h : joined (y * W + x) <;> simp [h]

theorem applyRasterizationPipeline_alpha (buf : List Pixel) (W H : ℕ)
    (shadow highlight : Color) (minL range bright ct cellSize : ℝ)
    (p : Pixel)
    (hp : p ∈ applyRasterizationPipeline buf W H shadow highlight minL range
      bright ct cellSize) :
    p.a = 255 := by
  rw [applyRasterizationPipeline_eq_render] at hp
  exact renderJoined_alpha _ _ _ _ _ _ hp

/-- C5: continuous mode leaves the alpha of every pixel untouched, and
raster mode sets the alpha of every output pixel to 255. -/
theorem claim_C5 (shadow highlight : Color) (buf : List Pixel) (i : ℕ)
    (hi : i < buf.length)
    (hi2 : i < (processContinuous shadow highlight buf).length)
    (buf2 : List Pixel) (W H : ℕ) (minL range bright ct cellSize : ℝ)
    (j : ℕ)
    (hj : j < (applyRasterizationPipeline buf2 W H shadow highlight minL
      range bright ct cellSize).length) :
    ((processContinuous shadow highlight buf).get ⟨i, hi2⟩).a =
        (buf.get ⟨i, hi⟩).a ∧
      ((applyRasterizationPipeline buf2 W H shadow highlight minL range
        bright ct cellSize).get ⟨j, hj⟩).a = 255 := by
  constructor
  · rw [processContinuous_get shadow highlight buf i hi hi2]
    rfl
  · exact applyRasterizationPipeline_alpha buf2 W H shadow highlight minL
      range bright ct cellSize _ (List.get_mem _ _ _)

theorem applyRasterizationPipeline_length (buf : List Pixel) (W H : ℕ)
    (shadow highlight : Color) (minL range bright ct cellSize : ℝ) :
    (applyRasterizationPipeline buf W H shadow highlight minL range bright
      ct cellSize).length = H * W := by
  rw [applyRasterizationPipeline_eq_render, renderJoined_length]

theorem rasterBuf1_pos :
    0 < (applyRasterizationPipeline blackBuf1 1 1 OPTIMIZED_SHADOW_COLOR
      OPTIMIZED_HIGHLIGHT_COLOR 0 1 1.3 1 8).length := by
  rw [applyRasterizationPipeline_length]
  norm_num

theorem blackBuf1_len : 0 < blackBuf1.length := by decide

/-- Witness for C5 on the one-pixel black buffer in both modes. -/
theorem claim_C5_witness :
    ((processContinuous OPTIMIZED_SHADOW_COLOR OPTIMIZED_HIGHLIGHT_COLOR
        blackBuf1).get ⟨0, blackBuf1_pos⟩).a =
        (blackBuf1.get ⟨0, blackBuf1_len⟩).a ∧
      ((applyRasterizationPipeline blackBuf1 1 1 OPTIMIZED_SHADOW_COLOR
        OPTIMIZED_HIGHLIGHT_COLOR 0 1 1.3 1 8).get ⟨0, rasterBuf1_pos⟩).a =
        255 :=
  claim_C5 OPTIMIZED_SHADOW_COLOR OPTIMIZED_HIGHLIGHT_COLOR blackBuf1 0
    blackBuf1_len blackBuf1_pos blackBuf1 1 1 0 1 1.3 1 8 0 rasterBuf1_pos

/-- C9: every sample that passes the bounds check of the join pass lies in
the image and its flattened array index is in range; the denominator
totalCount is at least 1 because the pixel itself always passes; and the
pixelIndex used by the threshold and render passes is in range. -/
theorem claim_C9 (W H : ℕ) (hW : 1 ≤ W) (hH : 1 ≤ H) (x y : ℕ)
    (hx : x < W) (hy : y < H) (k : ℕ) :
    (∀ s ∈ validSamples W H k x y,
      0 ≤ s.1 ∧ s.1 < (W : ℤ) ∧ 0 ≤ s.2 ∧ s.2 < (H : ℤ) ∧
        (s.2 * (W : ℤ) + s.1).toNat < W * H) ∧
    1 ≤ (validSamples W H k x y).length ∧
    y * W + x < W * H := by
  have hWH : W * H ≠ 0 := by positivity
  refine ⟨?_, ?_, ?_⟩
  · intro s hs
    obtain ⟨hmem, hbool⟩ := List.mem_filter.mp hs
    unfold inBoundsSample at hbool
    simp only [Bool.and_eq_true, decide_eq_true_eq] at hbool
    obtain ⟨⟨⟨h1, h2⟩, h3⟩, h4⟩ := hbool
    refine ⟨h1, h2, h3, h4, ?_⟩
    rw [Int.toNat_lt' hWH]
    have hstep : s.2 * (W : ℤ) ≤ ((H : ℤ) - 1) * (W : ℤ) :=
      mul_le_mul_of_nonneg_right (by omega) (by positivity)
    have hexp : ((H : ℤ) - 1) * (W : ℤ) + (W : ℤ) = (W : ℤ) * (H : ℤ) := by
      ring
    push_cast
    linarith
  · have hself : (((x : ℤ), (y : ℤ)) : ℤ × ℤ) ∈ validSamples W H k x y := by
      unfold validSamples
      rw [List.mem_filter]
      constructor
      · unfold sampleCoords
        rw [List.mem_flatMap]
        refine ⟨0, ?_, ?_⟩
        · unfold kernelOffsets
          rw [List.mem_map]
          exact ⟨k, by simp [List.mem_range]; omega, by ring⟩
        · rw [List.mem_map]
          refine ⟨0, ?_, by simp⟩
          unfold kernelOffsets
          rw [List.mem_map]
          exact ⟨k, by simp [List.mem_range]; omega, by ring⟩
      · unfold inBoundsSample
        simp only [Bool.and_eq_true, decide_eq_true_eq]
        refine ⟨⟨⟨by positivity, ?_⟩, by positivity⟩, ?_⟩
        · exact_mod_cast hx
        · exact_mod_cast hy
    have := List.length_pos.mpr (List.ne_nil_of_mem hself)
    omega
  · have h1 : y * W + x < y * W + W := Nat.add_lt_add_left hx (y * W)
    have h2 : y * W + W = (y + 1) * W := by ring
    have h3 : (y + 1) * W ≤ H * W := Nat.mul_le_mul_right W (by omega)
    have h4 : H * W = W * H := Nat.mul_comm H W
    omega

/-- Witness for C9 on a 2 by 2 image at the corner pixel with kernel 1. -/
theorem claim_C9_witness :
    (∀ s ∈ validSamples 2 2 1 0 0,
      0 ≤ s.1 ∧ s.1 < (2 : ℤ) ∧ 0 ≤ s.2 ∧ s.2 < (2 : ℤ) ∧
        (s.2 * (2 : ℤ) + s.1).toNat < 2 * 2) ∧
    1 ≤ (validSamples 2 2 1 0 0).length ∧
    0 * 2 + 0 < 2 * 2 :=
  claim_C9 2 2 (by norm_num) (by norm_num) 0 0 (by norm_num) (by norm_num) 1

/-! ### Concrete evaluation of the raster call on a one-pixel black image -/

theorem clamp01_zero : clamp01 0 = 0 := clamp01_of_mem 0 le_rfl zero_le_one

theorem clamp01_of_nonpos (x : ℝ) (h : x ≤ 0) : clamp01 x = 0 := by
  unfold clamp01
  rw [min_eq_right (le_trans h zero_le_one), max_eq_left h]

theorem blackPixel_lum : (⟨0, 0, 0, 255⟩ : Pixel).lum = 0 := by
  unfold Pixel.lum luminance
  norm_num

theorem scanLuminance_blackBuf1 : scanLuminance blackBuf1 = (0, 0) := by
  unfold scanLuminance blackBuf1
  rw [List.foldl_cons, List.foldl_nil]
  unfold lumStep
  dsimp only
  rw [blackPixel_lum]
  rw [if_pos (by norm_num : (0 : ℝ) < 255),
    if_neg (by norm_num : ¬((0 : ℝ) > 0))]

theorem luminanceRange_blackBuf1 : luminanceRange blackBuf1 = 1 := by
  unfold luminanceRange
  rw [scanLuminance_blackBuf1]
  norm_num

/-- The adjusted grayscale of a black pixel bottoms out at the final lift
0.05, giving 12.75 rather than 0. -/
theorem adjusted_black :
    adjustedGrayscale blackBuf1 0 1 (-1) 1 0 = 12.75 := by
  unfold adjustedGrayscale grayscaleData blackBuf1 adjustLevel
  rw [List.getD_cons_zero, blackPixel_lum]
  dsimp only
  rw [show ((0 : ℝ) - 0) / 1 = 0 by norm_num, clamp01_zero]
  rw [show (0 : ℝ) * (-1) = 0 by norm_num, clamp01_zero, enhanceContrast_zero]
  rw [show ((1 : ℝ) / 1) = 1 by norm_num, Real.rpow_one]
  rw [show ((0 : ℝ) - 0.05) / (0.95 - 0.05) = -(1 / 18) by norm_num]
  rw [clamp01_of_nonpos (-(1 / 18)) (by norm_num)]
  rw [Real.zero_rpow (by norm_num : ((1 : ℝ) / 0.8) ≠ 0)]
  rw [show (0 : ℝ) * 1.1 + 0.05 = 0.05 by norm_num]
  rw [clamp01_of_mem _ (by norm_num) (by norm_num)]
  norm_num

theorem threshold_black_false :
    thresholdAt 1 1 8 (adjustedGrayscale blackBuf1 0 1 (-1) 1) 0 0 = false := by
  unfold thresholdAt
  dsimp only
  rw [show (0 * 1 + 0 : ℕ) = 0 from rfl, adjusted_black]
  rw [Real.cos_pi_div_four, Real.sin_pi_div_four]
  rw [decide_eq_false_iff_not]
  have hs2 : Real.sqrt 2 ^ 2 = 2 := Real.sq_sqrt (by norm_num)
  have hs2nn : 0 ≤ Real.sqrt 2 := Real.sqrt_nonneg 2
  have hs2gt : 1.4 < Real.sqrt 2 := by nlinarith
  have hs2lt : Real.sqrt 2 < 1.5 := by nlinarith
  have hrX : ((0 : ℕ) : ℝ) - ((1 : ℕ) : ℝ) / 2 = -(1 / 2) := by norm_num
  rw [hrX]
  have hgX : ⌊(-(1 / 2) * (Real.sqrt 2 / 2) + -(1 / 2) * (Real.sqrt 2 / 2)) / 8⌋ = -1 := by
    rw [Int.floor_eq_iff]
    constructor
    · push_cast
      linarith
    · push_cast
      linarith
  have hgY : ⌊(-(-(1 / 2)) * (Real.sqrt 2 / 2) + -(1 / 2) * (Real.sqrt 2 / 2)) / 8⌋ = 0 := by
    rw [show -(-(1 / 2)) * (Real.sqrt 2 / 2) + -(1 / 2) * (Real.sqrt 2 / 2) = 0 by ring]
    norm_num
  rw [hgX, hgY]
  intro hle
  have hrad : 12.75 / 255 * 8 / 2 = (0.2 : ℝ) := by norm_num
  rw [hrad] at hle
  have hsq : (0.2 : ℝ) < Real.sqrt ((-(1 / 2) * (Real.sqrt 2 / 2) + -(1 / 2) * (Real.sqrt 2 / 2) - (-1 : ℤ) * 8 - 8 / 2) ^ 2 + (-(-(1 / 2)) * (Real.sqrt 2 / 2) + -(1 / 2) * (Real.sqrt 2 / 2) - (0 : ℤ) * 8 - 8 / 2) ^ 2) := by
    rw [Real.lt_sqrt (by norm_num)]
    push_cast
    nlinarith
  linarith [le_trans hsq.le hle]

theorem kernelSize_8 : (kernelSize 8).toNat = 2 := by
  unfold kernelSize
  rw [show (8 : ℝ) / 4 = 2 by norm_num]
  rw [show ⌊(2 : ℝ)⌋ = 2 by norm_num]
  rfl

theorem validSamples_11 : validSamples 1 1 2 0 0 = [((0 : ℤ), (0 : ℤ))] := by
  decide

theorem join_black_false :
    joinAt 1 1 2 (fun idx =>
      thresholdAt 1 1 8 (adjustedGrayscale blackBuf1 0 1 (-1) 1)
        (idx % 1) (idx / 1)) 0 0 = false := by
  unfold joinAt
  dsimp only
  rw [validSamples_11]
  rw [show (List.filter (fun s : ℤ × ℤ =>
      thresholdAt 1 1 8 (adjustedGrayscale blackBuf1 0 1 (-1) 1)
        ((s.2 * ((1 : ℕ) : ℤ) + s.1).toNat % 1)
        ((s.2 * ((1 : ℕ) : ℤ) + s.1).toNat / 1))
      [((0 : ℤ), (0 : ℤ))]) = [] from ?_]
  · rw [decide_eq_false_iff_not]
    norm_num
  · rw [List.filter_cons]
    rw [if_neg ?_, List.filter_nil]
    rw [show ((((0 : ℤ), (0 : ℤ)).2 * ((1 : ℕ) : ℤ) + ((0 : ℤ), (0 : ℤ)).1).toNat % 1 : ℕ) = 0 from rfl,
      show ((((0 : ℤ), (0 : ℤ)).2 * ((1 : ℕ) : ℤ) + ((0 : ℤ), (0 : ℤ)).1).toNat / 1 : ℕ) = 0 from rfl]
    rw [threshold_black_false]
    decide

theorem raster_black_output :
    applyRasterizationPipeline blackBuf1 1 1 OPTIMIZED_SHADOW_COLOR
      OPTIMIZED_HIGHLIGHT_COLOR 0 1 (-1) 1 8 = [⟨22, 80, 39, 255⟩] := by
  rw [applyRasterizationPipeline_eq_render]
  unfold renderJoined
  rw [show List.range 1 = [0] from rfl]
  rw [List.flatMap_cons, List.flatMap_nil, List.map_cons, List.map_nil,
    List.append_nil]
  dsimp only
  rw [kernelSize_8, join_black_false]
  rfl

/-- C4 as stated is false: a raster call whose settings carry the
non-positive brightness -1 is not rejected; it proceeds through the entire
pipeline and returns a completed result. -/
theorem claim_C4_cex :
    (resolveRasterSettings (some ⟨-1, 1, 8⟩)).brightness ≤ 0 ∧
    processImageOnCanvasCore true blackBuf1 1 1 false false true
        (some ⟨-1, 1, 8⟩) =
      Except.ok ⟨[(⟨22, 80, 39, 255⟩ : Pixel)], 1, 1⟩ := by
  constructor
  · norm_num [resolveRasterSettings]
  · have hstep : processImageOnCanvasCore true blackBuf1 1 1 false false true
        (some ⟨-1, 1, 8⟩) =
        Except.ok ⟨applyRasterizationPipeline blackBuf1 1 1
          OPTIMIZED_SHADOW_COLOR OPTIMIZED_HIGHLIGHT_COLOR
          (scanLuminance blackBuf1).1 (luminanceRange blackBuf1) (-1) 1 8,
          1, 1⟩ := rfl
    rw [hstep, scanLuminance_blackBuf1, luminanceRange_blackBuf1]
    dsimp only
    rw [raster_black_output]

/-- C4 (amended): the engine performs no raster-parameter validation at
all: for every settings record, including non-positive brightness, contrast
or cellSize, the raster call succeeds with a completed buffer, the provided
values are passed through unchanged, and the defaults (1.3, 1.0, 8) apply
only when the record is absent. -/
theorem claim_C4 (buf : List Pixel) (W H : ℕ) (isReversed useClassic : Bool)
    (rs : Option RasterSettings) :
    processImageOnCanvasCore true buf W H isReversed useClassic true rs =
      Except.ok ⟨applyRasterizationPipeline buf W H
        (selectColors isReversed useClassic).1
        (selectColors isReversed useClassic).2 (scanLuminance buf).1
        (luminanceRange buf) (resolveRasterSettings rs).brightness
        (resolveRasterSettings rs).contrast
        (resolveRasterSettings rs).cellSize, (W : ℤ), (H : ℤ)⟩ ∧
    (∀ s : RasterSettings, resolveRasterSettings (some s) = s) ∧
    (processImageOnCanvasCore true buf W H isReversed useClassic true
      rs).isOk = true := by
  refine ⟨rfl, fun s => rfl, rfl⟩

/-- C10: the dimension normalizer returns width 0 for the positive-area
input (1, 10000): the scale is 3000/10000 = 3/10 and round(1 * 3/10) = 0;
the zero-area target is passed on to processing, which accepts it. -/
theorem claim_C10 :
    calculateDimensions 1 10000 = (0, 3000) ∧
    (3000 : ℚ) / ((max 1 10000 : ℕ) : ℚ) = 3 / 10 ∧
    jsRoundQ ((1 : ℚ) * (3 / 10)) = 0 ∧
    processImageOnCanvasModel true 1 10000 [] false false false none =
      Except.ok ⟨[], 0, 3000⟩ := by
  have h1 : calculateDimensions 1 10000 = ((0 : ℤ), (3000 : ℤ)) := by
    norm_num [calculateDimensions, jsRoundQ, MAX_DIMENSION]
  refine ⟨h1, by norm_num, by norm_num [jsRoundQ], ?_⟩
  unfold processImageOnCanvasModel
  rw [h1]
  rfl

end Duotone
